import Mathlib

/-!
Shallow embedding of `device_serve_for_eval.py`: the Flask `/complete`
handler (admission to `requests_queue`), and the `__main__` worker loop
(dequeue, per-context tokenize/pad, engine call, response assembly,
publication on the per-job response queue).

External collaborators (the tokenizer and `network.generate`) are
parameters of the model, gathered in `Env`.  `tokenizer.encode` may raise,
so it is `String → Option (List ℕ)` (`none` = raises); `network.generate`
may raise, so it returns `Option` as well.  Numeric request parameters
(`top_p`, `temp`) are modelled as rationals — the handler only converts
and forwards them, no float-specific behaviour is involved.  Response
channels (`Queue` objects created per request) are identified by a `ℕ`
channel id.
-/

set_option autoImplicit false

namespace DeviceServe

/-- The dict the handler builds at lines 57-63 of the source: the five
fields read from the POST body, `top_p`/`temp` cast to float and
`gen_tokens` cast to int. -/
structure Job where
  contexts : List String
  top_p : ℚ
  targets : List String
  temp : ℚ
  gen_tokens : ℤ
deriving DecidableEq, Repr

/-- Outcome of one POST to `/complete` at admission time: either the
queue-full error body is returned, or the job is put on
`requests_queue`. -/
inductive SubmitResult where
  | rejected
  | enqueued (job : Job)
deriving DecidableEq, Repr

/-- The admission part of the `complete` handler (source lines 49-63):
`if requests_queue.qsize() > 100: return error`, otherwise the job dict is
put on the queue.  `requests_queue = Queue()` is unbounded, so the `put`
never blocks; there is no further validation of the body. -/
def complete (queueSize : ℕ) (content : Job) : SubmitResult :=
  if 100 < queueSize then .rejected else .enqueued content

/-- Python `arr[-n:]` on a list (used at line 180, `[-seq:]`): for
`n = 0` this is the whole list, otherwise the last `n` elements. -/
def npTakeLast (n : ℕ) (xs : List ℕ) : List ℕ :=
  if n = 0 then xs else xs.drop (xs.length - n)

/-- Worker-loop environment: the fixed sequence length `seq` from the
config, the tokenizer (`enc` = `tokenizer.encode`, which may raise;
`convert` = `tokenizer.convert_ids_to_tokens`), and the engine
(`network.generate`, applied to the padded token batch, the lengths, the
`gen_tokens` count and the per-row `top_p`/`temp` arrays; `none` models a
raised exception).  `generate`'s value stands for the generated token id
rows `output[1][0][:, :, 0]`; the logits `output[1][2]` only feed the
local `selected_log_probs`, which the loop never uses, so they are not
part of the model. -/
structure Env where
  seq : ℕ
  enc : String → Option (List ℕ)
  convert : List ℕ → List String
  generate : List (List ℕ) → List ℕ → ℤ → List ℚ → List ℚ → Option (List (List ℕ))

/-- One iteration of the per-context loop at source lines 169-186:
`padded_tokens = np.zeros(seq)` and `length = 0` are set before the
`try`; on a successful `encode` the row becomes
`np.pad(tokens, ((max(seq - len(tokens), 0), 0),))[-seq:]` with
`length = len(tokens)`; on an exception the zero row with length 0 is
kept. -/
def encodeRow (env : Env) (ctx : String) : List ℕ × ℕ :=
  match env.enc ctx with
  | none => (List.replicate env.seq 0, 0)
  | some tokens =>
      let pad_amount := env.seq - tokens.length
      (npTakeLast env.seq (List.replicate pad_amount 0 ++ tokens), tokens.length)

/-- The arguments of the `network.generate` call at lines 188-195, as
assembled from one dequeued job: `np.array(all_tokenized)`,
`np.array(all_length)`, `gen_tokens`, and the `top_p`/`temp` arrays
`context_length * [top_p]`, `context_length * [temp]`. -/
structure EngineCall where
  tokens : List (List ℕ)
  lengths : List ℕ
  gen_tokens : ℤ
  top_p : List ℚ
  temp : List ℚ
deriving DecidableEq, Repr

/-- Build the engine-call arguments from a job (lines 154-157 and
167-186): every context of the job, and only contexts of this job, is
tokenized into the batch. -/
def jobEngineCall (env : Env) (o : Job) : EngineCall :=
  { tokens := o.contexts.map (fun c => (encodeRow env c).1)
  , lengths := o.contexts.map (fun c => (encodeRow env c).2)
  , gen_tokens := o.gen_tokens
  , top_p := List.replicate o.contexts.length o.top_p
  , temp := List.replicate o.contexts.length o.temp }

/-- Invoke the engine on an assembled call. -/
def runEngine (env : Env) (c : EngineCall) : Option (List (List ℕ)) :=
  env.generate c.tokens c.lengths c.gen_tokens c.top_p c.temp

/-- The response-assembly loop at lines 202-209:
`for o, target in zip(output[1][0][:, :, 0], targets)` appends the pair
`(convert_ids_to_tokens(o), convert_ids_to_tokens(encode(target)))`.
The `encode(target)` call is not guarded by any `try`, so a failing
target encoding aborts the iteration (`none`). -/
def buildResponse (env : Env) : List (List ℕ × String) → Option (List (List String × List String))
  | [] => some []
  | (g, target) :: rest =>
      match env.enc target, buildResponse env rest with
      | some tt, some rs => some ((env.convert g, env.convert tt) :: rs)
      | _, _ => none

/-- What one worker-loop iteration did, besides consuming the head of the
queue.  `slept` — queue empty, `time.sleep(0.01)` then `continue`;
`breakLoop` — the `break` in the `except Empty` branch (taken only when
`all_ctx` is nonempty there); `dropped chan` — a job with empty
`contexts` was dequeued and then skipped by `if not all_ctx: continue`,
nothing is ever put on its response queue `chan`; `published chan resp` —
`q.put(response)` on channel `chan`; `crashed` — an exception escaped the
loop body (engine raise, or target-encode raise), killing the worker
thread: nothing is put on the job's response queue and no later job is
ever dequeued. -/
inductive IterResult where
  | slept
  | breakLoop
  | dropped (chan : ℕ)
  | published (chan : ℕ) (resp : List (List String × List String))
  | crashed
deriving DecidableEq, Repr

/-- State after one worker-loop iteration: the remaining queue, the
engine call made during the iteration (if any), and what happened. -/
structure StepOut where
  queue : List (Job × ℕ)
  call : Option EngineCall
  result : IterResult
deriving DecidableEq, Repr

/-- One iteration of the `while True` worker loop (lines 143-212).
`all_ctx = []` is (re)set at the top of every iteration; a non-blocking
`get` then either raises `Empty` (queue empty: `break` if `all_ctx` is
nonempty — which it never is at that point — else sleep) or yields one
job, whose `contexts` overwrite `all_ctx`.  An empty `all_ctx` is skipped
by `continue`; otherwise the batch is encoded, the engine is called, the
response is assembled and put on the job's response queue. -/
def workerStep (env : Env) (queue : List (Job × ℕ)) : StepOut :=
  let all_ctx : List String := []
  match queue with
  | [] =>
      if all_ctx.length ≠ 0 then { queue := queue, call := none, result := .breakLoop }
      else { queue := queue, call := none, result := .slept }
  | (o, chan) :: rest =>
      if o.contexts.isEmpty then { queue := rest, call := none, result := .dropped chan }
      else
        match runEngine env (jobEngineCall env o) with
        | none => { queue := rest, call := some (jobEngineCall env o), result := .crashed }
        | some genRows =>
            match buildResponse env (genRows.zip o.targets) with
            | none => { queue := rest, call := some (jobEngineCall env o), result := .crashed }
            | some resp => { queue := rest, call := some (jobEngineCall env o), result := .published chan resp }

/-- Messages put on response channels by one iteration. -/
def putsOf : IterResult → List (ℕ × List (List String × List String))
  | .published chan resp => [(chan, resp)]
  | _ => []

/-- The handler's collection phase at lines 65-67:
`completions = [response_queue.get()]` blocks for a first item (`none` =
the caller blocks forever because nothing is ever put), then
`while not response_queue.empty(): completions.append(...)` drains the
rest.  `items` is the list of everything put on this job's channel. -/
def handlerCollect {α : Type} (items : List α) : Option (List α) :=
  match items with
  | [] => none
  | first :: rest => some (first :: rest)

/-! Concrete instantiations of the external collaborators, used to
evaluate the model at explicit inputs. -/

/-- A concrete tokenizer encode: raises on the text `"bad"`, otherwise
yields the one-token sequence `[1]`. -/
def encStd : String → Option (List ℕ) := fun s => if s = "bad" then none else some [1]

/-- A concrete id-to-token-string decoder: decimal rendering. -/
def convertStd : List ℕ → List String := fun ids => ids.map (fun n => toString n)

/-- A concrete row-local generation function: the generated ids of a row
are its recorded length, as a single token. -/
def frowStd : List ℕ → ℕ → List ℕ := fun _ len => [len]

/-- A concrete environment whose engine applies `frowStd` to each row of
the batch independently. -/
def envStd : Env :=
  { seq := 4
  , enc := encStd
  , convert := convertStd
  , generate := fun toks lens _ _ _ => some (List.zipWith frowStd toks lens) }

/-- `envStd` with an engine that always raises. -/
def envFail : Env :=
  { envStd with generate := fun _ _ _ _ _ => none }

/-- An environment exhibiting the padding behaviour on over-long input:
sequence length 2, every context encoding to the three tokens
`[5, 6, 7]`, engine echoing the token batch. -/
def envC4 : Env :=
  { seq := 2
  , enc := fun _ => some [5, 6, 7]
  , convert := convertStd
  , generate := fun toks _ _ _ _ => some toks }

/-- A concrete two-context job. -/
def jobTwo : Job :=
  { contexts := ["a", "b"], top_p := 0, targets := ["c", "d"], temp := 0, gen_tokens := 1 }

/-- A concrete one-context job. -/
def jobOne : Job :=
  { contexts := ["e"], top_p := 0, targets := ["f"], temp := 0, gen_tokens := 1 }

/-- A job with empty `contexts` and `targets`. -/
def jobEmpty : Job :=
  { contexts := [], top_p := 0, targets := [], temp := 0, gen_tokens := 1 }

/-- A job whose `targets` list is shorter than its `contexts` list. -/
def jobShort : Job :=
  { contexts := ["a", "b", "c"], top_p := 0, targets := ["d"], temp := 0, gen_tokens := 1 }

/-- A submission violating every validation rule of the spec at once:
mismatched lengths (`1` context, `0` targets), `top_p = 2 ∉ [0,1]`,
`temperature = -1 < 0`. -/
def jobInvalid : Job :=
  { contexts := ["a"], top_p := 2, targets := [], temp := -1, gen_tokens := 1 }

/-- The pair appended to `response` for one `(generated row, target)`:
the decoded generated token ids and the decoded tokenization of the
target (total form, for use when every target encodes). -/
def pairSpec (env : Env) (p : List ℕ × String) : List String × List String :=
  (env.convert p.1, env.convert ((env.enc p.2).getD []))

/-- Closed form of a published response: one pair per element of
`genRows.zip targets`, in order. -/
def respSpec (env : Env) (genRows : List (List ℕ)) (targets : List String) :
    List (List String × List String) :=
  (genRows.zip targets).map (pairSpec env)

/-! Structural lemmas about one worker-loop iteration. -/

/-- Each iteration consumes at most the head of the queue. -/
theorem workerStep_queue (env : Env) (queue : List (Job × ℕ)) :
    (workerStep env queue).queue = queue.drop 1 := by
  rcases queue with _ | ⟨⟨o, chan⟩, rest⟩
  · rfl
  · simp only [workerStep]
    by_cases h : o.contexts.isEmpty <;> simp only [h, if_true, if_false, Bool.false_eq_true]
    · rfl
    · rcases hr : runEngine env (jobEngineCall env o) with _ | rows
      · rfl
      · simp only []
        rcases hb : buildResponse env (rows.zip o.targets) with _ | resp <;> simp only [hb] <;> rfl

/-- The engine call of an iteration is determined by the head job alone:
none when the queue is empty or the head job has no contexts, and the
head job's own call otherwise. -/
theorem workerStep_call (env : Env) (queue : List (Job × ℕ)) :
    (workerStep env queue).call =
      match queue with
      | [] => none
      | (o, _) :: _ => if o.contexts.isEmpty then none else some (jobEngineCall env o) := by
  rcases queue with _ | ⟨⟨o, chan⟩, rest⟩
  · rfl
  · by_cases h : o.contexts.isEmpty
    · simp only [workerStep, h, if_true]
    · simp only [workerStep, h, Bool.false_eq_true, if_false]
      rcases hr : runEngine env (jobEngineCall env o) with _ | rows
      · rfl
      · rcases hb : buildResponse env (rows.zip o.targets) with _ | resp <;> simp only [hb]

/-- The `break` branch of the `except Empty` handler is unreachable:
`all_ctx` has just been reset to `[]` whenever `Empty` is raised. -/
theorem workerStep_not_break (env : Env) (queue : List (Job × ℕ)) :
    (workerStep env queue).result ≠ .breakLoop := by
  rcases queue with _ | ⟨⟨o, chan⟩, rest⟩
  · simp [workerStep]
  · simp only [workerStep]
    by_cases h : o.contexts.isEmpty <;> simp only [h, if_true, if_false, Bool.false_eq_true]
    · simp
    · rcases hr : runEngine env (jobEngineCall env o) with _ | rows
      · simp
      · simp only []
        rcases hb : buildResponse env (rows.zip o.targets) with _ | resp <;> simp only [hb] <;> simp

/-- When every target of the zipped list encodes, `buildResponse`
succeeds and is the pointwise `pairSpec`. -/
theorem buildResponse_eq_map (env : Env) (l : List (List ℕ × String))
    (h : ∀ p ∈ l, (env.enc p.2).isSome) :
    buildResponse env l = some (l.map (pairSpec env)) := by
  induction l with
  | nil => rfl
  | cons p rest ih =>
      obtain ⟨g, target⟩ := p
      have h1 : (env.enc target).isSome := h (g, target) (by simp)
      obtain ⟨tt, htt⟩ := Option.isSome_iff_exists.mp h1
      have h2 := ih (fun q hq => h q (List.mem_cons_of_mem _ hq))
      simp only [buildResponse, htt, h2, pairSpec, List.map_cons, Option.getD_some]

/-- When the head job has contexts, the engine succeeds, and every target
encodes, the iteration publishes `respSpec` on the job's channel. -/
theorem workerStep_publishes (env : Env) (o : Job) (chan : ℕ) (rest : List (Job × ℕ))
    (rows : List (List ℕ))
    (hne : o.contexts ≠ [])
    (hgen : runEngine env (jobEngineCall env o) = some rows)
    (htgt : ∀ t ∈ o.targets, (env.enc t).isSome) :
    workerStep env ((o, chan) :: rest) =
      { queue := rest
      , call := some (jobEngineCall env o)
      , result := .published chan (respSpec env rows o.targets) } := by
  have hE : o.contexts.isEmpty = false := by
    simpa [List.isEmpty_iff] using hne
  have hmem : ∀ p ∈ rows.zip o.targets, (env.enc p.2).isSome := by
    intro p hp
    obtain ⟨g, t⟩ := p
    exact htgt t (List.of_mem_zip hp).2
  simp only [workerStep, hE, Bool.false_eq_true, if_false, hgen,
    buildResponse_eq_map env (rows.zip o.targets) hmem, respSpec]

/-! Claim C2 — engine failure. -/

/-- C2: the claim says an engine exception still yields a terminal error
on the job's response channel and the worker loop survives.  The code
has no handler around `network.generate`: evaluating the loop on a
concrete queue whose head job makes the engine raise shows the iteration
ends in `crashed` — nothing is put on channel 0 (the caller blocks
forever on `response_queue.get()`), and the next job, still sitting in
the queue, is never dequeued because the worker thread is dead. -/
theorem C2_engine_fault_kills_worker :
    (workerStep envFail [(jobOne, 0), (jobTwo, 1)]).result = .crashed
    ∧ putsOf (workerStep envFail [(jobOne, 0), (jobTwo, 1)]).result = []
    ∧ (workerStep envFail [(jobOne, 0), (jobTwo, 1)]).queue = [(jobTwo, 1)] := by
  refine ⟨by decide, by decide, by decide⟩

/-! Claim C3 — validation before admission. -/

/-- C3 counterexample: `jobInvalid` has `len(contexts) = 1 ≠ 0 =
len(targets)`, `top_p = 2 > 1` and `temperature = -1 < 0`, yet the
handler enqueues it (the claim says such a submission is rejected and
never placed on the admission queue). -/
theorem C3_counterexample :
    complete 0 jobInvalid = .enqueued jobInvalid
    ∧ jobInvalid.contexts.length ≠ jobInvalid.targets.length
    ∧ ¬ jobInvalid.top_p ≤ 1
    ∧ ¬ 0 ≤ jobInvalid.temp
    ∧ complete 0 jobInvalid ≠ .rejected := by
  refine ⟨rfl, by decide, by norm_num [jobInvalid], by norm_num [jobInvalid], by decide⟩

/-- C3 (amended): the `complete` handler performs no validation at all —
every submission that passes the queue-size check is enqueued as-is,
regardless of length mismatch or out-of-range `top_p`/`temperature`. -/
theorem C3_no_validation (queueSize : ℕ) (content : Job) (hq : queueSize ≤ 100) :
    complete queueSize content = .enqueued content := by
  simp [complete, Nat.not_lt.mpr hq]

/-- C3 witness: the fully-invalid submission of the counterexample is
admitted on an empty queue. -/
theorem C3_witness : complete 0 jobInvalid = .enqueued jobInvalid :=
  C3_no_validation 0 jobInvalid (by decide)

/-! Claim C5 — bounded admission with immediate rejection. -/

/-- C5 counterexample: with exactly 100 entries outstanding (the code's
capacity constant), the next submission is still enqueued — the check is
`qsize() > 100`, so rejection only begins once the queue holds 101
entries, refuting the claim that a submission arriving at the capacity
threshold is rejected. -/
theorem C5_counterexample :
    complete 100 jobOne = .enqueued jobOne
    ∧ complete 100 jobOne ≠ .rejected := by
  refine ⟨by decide, by decide⟩

/-- C5 (amended): submission never blocks (it always returns immediately,
either the queue-full error or an enqueue — `requests_queue` is
unbounded so `put` cannot block), and it is rejected exactly when the
queue already holds strictly more than 100 entries, i.e. the first
rejected submission is the one arriving with 101 outstanding. -/
theorem C5_capacity_threshold (queueSize : ℕ) (content : Job) :
    (complete queueSize content = .rejected ↔ 100 < queueSize)
    ∧ (complete queueSize content = .rejected
        ∨ complete queueSize content = .enqueued content) := by
  constructor
  · constructor
    · intro h
      by_contra hq
      simp [complete, hq] at h
    · intro h
      simp [complete, h]
  · by_cases h : 100 < queueSize <;> simp [complete, h]

/-- C5 witness: the amended description at the boundary — 100
outstanding entries admit, 101 reject. -/
theorem C5_witness :
    (complete 100 jobOne = .rejected ↔ 100 < 100)
    ∧ (complete 100 jobOne = .rejected ∨ complete 100 jobOne = .enqueued jobOne) :=
  C5_capacity_threshold 100 jobOne

/-! Claim C6 — empty jobs. -/

/-- C6 counterexample: the `N = 0` job is admitted (so not rejected by
validation), the worker dequeues it and the `if not all_ctx: continue`
guard skips it without ever putting anything on its response channel —
`handlerCollect` of the (empty) list of puts is `none`, i.e. the caller
blocks forever in `response_queue.get()`, refuting "never waits
forever". -/
theorem C6_counterexample :
    complete 0 jobEmpty = .enqueued jobEmpty
    ∧ workerStep envStd [(jobEmpty, 0)] = { queue := [], call := none, result := .dropped 0 }
    ∧ putsOf (workerStep envStd [(jobEmpty, 0)]).result = []
    ∧ handlerCollect (putsOf (workerStep envStd [(jobEmpty, 0)]).result) = none := by
  refine ⟨by decide, by decide, by decide, by decide⟩

/-- C6 (amended): a job with empty `contexts` (in particular the `N = 0`
job) is admitted without validation, and the worker loop silently
discards it: the engine is never called, nothing is ever put on its
response channel, and the loop moves on — so the submitting caller waits
forever without a terminal signal. -/
theorem C6_empty_job_dropped (env : Env) (queueSize chan : ℕ) (rest : List (Job × ℕ))
    (o : Job) (hq : queueSize ≤ 100) (hc : o.contexts = []) :
    complete queueSize o = .enqueued o
    ∧ workerStep env ((o, chan) :: rest) = { queue := rest, call := none, result := .dropped chan }
    ∧ putsOf (workerStep env ((o, chan) :: rest)).result = [] := by
  have h1 : complete queueSize o = .enqueued o := by
    simp [complete, Nat.not_lt.mpr hq]
  have hE : o.contexts.isEmpty = true := by simp [hc]
  have h2 : workerStep env ((o, chan) :: rest) =
      { queue := rest, call := none, result := .dropped chan } := by
    simp [workerStep, hE]
  exact ⟨h1, h2, by rw [h2]; rfl⟩

/-- C6 witness: the amended behaviour at the concrete empty job. -/
theorem C6_witness :
    complete 0 jobEmpty = .enqueued jobEmpty
    ∧ workerStep envStd [(jobEmpty, 0)] = { queue := [], call := none, result := .dropped 0 }
    ∧ putsOf (workerStep envStd [(jobEmpty, 0)]).result = [] :=
  C6_empty_job_dropped envStd 0 0 [] jobEmpty (by decide) rfl

/-! Claim C4 — padding, truncation and the recorded length. -/

/-- C4 counterexample: with sequence length `S = 2` and a context
encoding to 3 tokens, the row is correctly truncated to the last 2
tokens, but the recorded length is the full token count 3, not
`min(t, S) = 2` as the claim states. -/
theorem C4_counterexample :
    encodeRow envC4 "x" = ([6, 7], 3)
    ∧ (encodeRow envC4 "x").2 ≠ min 3 envC4.seq := by
  refine ⟨by decide, by decide⟩

/-- C4 (amended): for a context whose encoding succeeds with `t` tokens,
if `t < S` the row is the `t` tokens left-padded with `0` to width `S`,
and if `t ≥ S` the row is the last `S` tokens; but the recorded length
is always the full true token count `t` — it is not clamped to
`min(t, S)`, so a context with `t > S` is reported with length `t`,
not `S`. -/
theorem C4_padding_length (env : Env) (ctx : String) (tokens : List ℕ)
    (hS : 0 < env.seq) (henc : env.enc ctx = some tokens) :
    (encodeRow env ctx).2 = tokens.length
    ∧ (tokens.length < env.seq →
        (encodeRow env ctx).1 = List.replicate (env.seq - tokens.length) 0 ++ tokens)
    ∧ (env.seq ≤ tokens.length →
        (encodeRow env ctx).1 = tokens.drop (tokens.length - env.seq)) := by
  have hS0 : env.seq ≠ 0 := Nat.pos_iff_ne_zero.mp hS
  refine ⟨by simp [encodeRow, henc], ?_, ?_⟩
  · intro hlt
    have hlen : (List.replicate (env.seq - tokens.length) 0 ++ tokens).length = env.seq := by
      simp [Nat.sub_add_cancel (Nat.le_of_lt hlt)]
    simp [encodeRow, henc, npTakeLast, hS0, hlen]
  · intro hge
    have h0 : env.seq - tokens.length = 0 := Nat.sub_eq_zero_of_le hge
    simp [encodeRow, henc, npTakeLast, hS0, h0]

/-- C4 witness: the amended statement evaluated on the concrete
over-long context of the counterexample. -/
theorem C4_witness :
    (encodeRow envC4 "x").2 = ([5, 6, 7] : List ℕ).length
    ∧ (([5, 6, 7] : List ℕ).length < envC4.seq →
        (encodeRow envC4 "x").1
          = List.replicate (envC4.seq - ([5, 6, 7] : List ℕ).length) 0 ++ [5, 6, 7])
    ∧ (envC4.seq ≤ ([5, 6, 7] : List ℕ).length →
        (encodeRow envC4 "x").1
          = ([5, 6, 7] : List ℕ).drop (([5, 6, 7] : List ℕ).length - envC4.seq)) :=
  C4_padding_length envC4 "x" [5, 6, 7] (by decide) rfl

/-! Claim C1 — shape of the returned completion array. -/

/-- C1 counterexample: a successfully processed job with `N = 2` makes
the worker put the single list of its 2 pairs on the response channel;
the handler wraps that single `get` in a list, so the `completion` array
of the JSON body has exactly 1 entry, not `N = 2`. -/
theorem C1_counterexample :
    jobTwo.contexts.length = 2
    ∧ jobTwo.targets.length = 2
    ∧ (workerStep envStd [(jobTwo, 0)]).result
        = .published 0 [(["1"], ["1"]), (["1"], ["1"])]
    ∧ handlerCollect [[(["1"], ["1"]), (["1"], ["1"])]]
        = some [[(["1"], ["1"]), (["1"], ["1"])]]
    ∧ ([[(["1"], ["1"]), (["1"], ["1"])]] : List (List (List String × List String))).length = 1
    ∧ ([[(["1"], ["1"]), (["1"], ["1"])]] : List (List (List String × List String))).length
        ≠ jobTwo.contexts.length := by
  refine ⟨by decide, by decide, by decide, by decide, by decide, by decide⟩

/-- C1 (amended): for an admitted and successfully processed job with
`N = len(contexts) = len(targets)` (engine returning one row per
context and every target encoding), the `completion` array of the
response body has exactly ONE entry; that entry is the job's list of
`N` pairs, one per context/target in input order — the pairs sit one
nesting level deeper than the claim states. -/
theorem C1_completion_nested (env : Env) (o : Job) (chan : ℕ) (rest : List (Job × ℕ))
    (rows : List (List ℕ))
    (hne : o.contexts ≠ [])
    (hN : o.targets.length = o.contexts.length)
    (hrows : rows.length = o.contexts.length)
    (hgen : runEngine env (jobEngineCall env o) = some rows)
    (htgt : ∀ t ∈ o.targets, (env.enc t).isSome) :
    (workerStep env ((o, chan) :: rest)).result
      = .published chan (respSpec env rows o.targets)
    ∧ handlerCollect [respSpec env rows o.targets] = some [respSpec env rows o.targets]
    ∧ ([respSpec env rows o.targets] : List _).length = 1
    ∧ (respSpec env rows o.targets).length = o.contexts.length := by
  have h := workerStep_publishes env o chan rest rows hne hgen htgt
  refine ⟨by rw [h], rfl, rfl, ?_⟩
  simp [respSpec, hrows, hN]

/-- C1 witness: the amended statement at the concrete two-context job of
the counterexample. -/
theorem C1_witness :
    (workerStep envStd [(jobTwo, 0)]).result
      = .published 0 (respSpec envStd [[1], [1]] jobTwo.targets)
    ∧ handlerCollect [respSpec envStd [[1], [1]] jobTwo.targets]
        = some [respSpec envStd [[1], [1]] jobTwo.targets]
    ∧ ([respSpec envStd [[1], [1]] jobTwo.targets] : List _).length = 1
    ∧ (respSpec envStd [[1], [1]] jobTwo.targets).length = jobTwo.contexts.length :=
  C1_completion_nested envStd jobTwo 0 [] [[1], [1]]
    (by decide) (by decide) (by decide) (by decide) (by decide)

/-! Claim C8 — one job per iteration, unreachable batch-drain break. -/

/-- C8: every worker-loop iteration removes at most the head entry of
the queue; the `break` of the batch-drain branch is never reached
(`all_ctx` is reset to `[]` at the top of the iteration, so it is empty
whenever `Empty` is raised); and the engine call of an iteration is
determined by the head job alone — it does not change if the rest of
the queue changes, and when a call happens it is exactly the head job's
own call, so contexts of two submissions are never merged. -/
theorem C8_single_job_per_iteration (env : Env) (queue rest rest2 : List (Job × ℕ))
    (o : Job) (chan : ℕ) :
    (workerStep env queue).queue = queue.drop 1
    ∧ (workerStep env queue).result ≠ .breakLoop
    ∧ (workerStep env ((o, chan) :: rest)).call = (workerStep env ((o, chan) :: rest2)).call
    ∧ ((workerStep env ((o, chan) :: rest)).call = none
        ∨ (workerStep env ((o, chan) :: rest)).call = some (jobEngineCall env o)) := by
  refine ⟨workerStep_queue env queue, workerStep_not_break env queue, ?_, ?_⟩
  · rw [workerStep_call, workerStep_call]
  · rw [workerStep_call]
    by_cases h : o.contexts.isEmpty <;> simp [h]

/-- C8 witness: the properties at a concrete queue. -/
theorem C8_witness :
    (workerStep envStd [(jobOne, 0)]).queue = List.drop 1 [(jobOne, 0)]
    ∧ (workerStep envStd [(jobOne, 0)]).result ≠ .breakLoop
    ∧ (workerStep envStd [(jobOne, 0), (jobTwo, 1)]).call
        = (workerStep envStd [(jobOne, 0)]).call
    ∧ ((workerStep envStd [(jobOne, 0), (jobTwo, 1)]).call = none
        ∨ (workerStep envStd [(jobOne, 0), (jobTwo, 1)]).call
            = some (jobEngineCall envStd jobOne)) :=
  C8_single_job_per_iteration envStd [(jobOne, 0)] [(jobTwo, 1)] [] jobOne 0

/-! Claim C9 — targets are displayed, never fed to the engine. -/

/-- C9: the engine-call arguments are identical for two jobs differing
only in `targets` (the target is never fed to `network.generate`), and
the published pair for each row is exactly (decoded engine-generated
token ids, decoded tokenization of the target) — the result contains
token strings only, no forced log-probability of the target. -/
theorem C9_targets_not_forced (env : Env) (o : Job) (chan : ℕ) (rest : List (Job × ℕ))
    (rows : List (List ℕ)) (otherTargets : List String)
    (hne : o.contexts ≠ [])
    (hgen : runEngine env (jobEngineCall env o) = some rows)
    (htgt : ∀ t ∈ o.targets, (env.enc t).isSome) :
    jobEngineCall env { o with targets := otherTargets } = jobEngineCall env o
    ∧ (workerStep env ((o, chan) :: rest)).result
        = .published chan
            (List.map (fun p => (env.convert p.1, env.convert ((env.enc p.2).getD [])))
              (rows.zip o.targets)) := by
  refine ⟨rfl, ?_⟩
  rw [workerStep_publishes env o chan rest rows hne hgen htgt]
  rfl

/-- C9 witness: the statement at a concrete one-context job with
replaced targets. -/
theorem C9_witness :
    jobEngineCall envStd { jobOne with targets := ["z"] } = jobEngineCall envStd jobOne
    ∧ (workerStep envStd [(jobOne, 0)]).result
        = .published 0
            (List.map (fun p => (envStd.convert p.1, envStd.convert ((envStd.enc p.2).getD [])))
              (([[1]] : List (List ℕ)).zip jobOne.targets)) :=
  C9_targets_not_forced envStd jobOne 0 [] [[1]] ["z"] (by decide) (by decide) (by decide)

/-! Claim C10 — targets shorter than contexts. -/

/-- C10: a job whose `targets` list is shorter than its `contexts` list
is accepted without error (no validation), the engine is still called
with one tokenized row per context, and the published result has
exactly `min(len(contexts), len(targets))` pairs — the rows beyond
`len(targets)` are dropped by the `zip` over generated rows and
targets. -/
theorem C10_short_targets (env : Env) (queueSize : ℕ) (o : Job) (chan : ℕ)
    (rest : List (Job × ℕ)) (rows : List (List ℕ))
    (hq : queueSize ≤ 100)
    (hlt : o.targets.length < o.contexts.length)
    (hrows : rows.length = o.contexts.length)
    (hgen : runEngine env (jobEngineCall env o) = some rows)
    (htgt : ∀ t ∈ o.targets, (env.enc t).isSome) :
    complete queueSize o = .enqueued o
    ∧ (jobEngineCall env o).tokens.length = o.contexts.length
    ∧ (workerStep env ((o, chan) :: rest)).result
        = .published chan (respSpec env rows o.targets)
    ∧ (respSpec env rows o.targets).length = min o.contexts.length o.targets.length := by
  have hne : o.contexts ≠ [] := by
    intro h
    rw [h] at hlt
    simp at hlt
  refine ⟨by simp [complete, Nat.not_lt.mpr hq], by simp [jobEngineCall], ?_, ?_⟩
  · rw [workerStep_publishes env o chan rest rows hne hgen htgt]
  · simp [respSpec, hrows]

/-- C10 witness: three contexts, one target — one published pair. -/
theorem C10_witness :
    complete 0 jobShort = .enqueued jobShort
    ∧ (jobEngineCall envStd jobShort).tokens.length = jobShort.contexts.length
    ∧ (workerStep envStd [(jobShort, 0)]).result
        = .published 0 (respSpec envStd [[1], [1], [1]] jobShort.targets)
    ∧ (respSpec envStd [[1], [1], [1]] jobShort.targets).length
        = min jobShort.contexts.length jobShort.targets.length :=
  C10_short_targets envStd 0 jobShort 0 [] [[1], [1], [1]]
    (by decide) (by decide) (by decide) (by decide) (by decide)

/-! Claim C7 — a single encoding failure is recovered locally.  The
claim compares a sibling's scoring with and without the failing context,
which is meaningful only when the engine scores each batch row
independently; that row-locality is taken as a hypothesis (`frow` is the
per-row generation function). -/

/-- Pointwise `zipWith` over two maps of the same list. -/
theorem zipWith_map_same {α β γ δ : Type} (f : β → δ → γ) (g : α → β) (h : α → δ)
    (l : List α) :
    List.zipWith f (l.map g) (l.map h) = l.map (fun x => f (g x) (h x)) := by
  induction l with
  | nil => rfl
  | cons a l ih => simp [ih]

/-- The generated row for one context under a row-local engine `frow`
(the row is a function of that context's padded tokens and recorded
length alone). -/
def rowOut (env : Env) (frow : List ℕ → ℕ → List ℕ) (c : String) : List ℕ :=
  frow (encodeRow env c).1 (encodeRow env c).2

/-- The published pairs for a block of contexts and targets under a
row-local engine. -/
def respOf (env : Env) (frow : List ℕ → ℕ → List ℕ) (ctxs tgts : List String) :
    List (List String × List String) :=
  respSpec env (ctxs.map (rowOut env frow)) tgts

/-- Under a row-local engine, the engine output for a job is the rowwise
image of its contexts. -/
theorem rowwise_engine_rows (env : Env) (frow : List ℕ → ℕ → List ℕ) (o : Job)
    (hrow : ∀ toks lens gt tpv tmv, env.generate toks lens gt tpv tmv
              = some (List.zipWith frow toks lens)) :
    runEngine env (jobEngineCall env o) = some (o.contexts.map (rowOut env frow)) := by
  simp only [runEngine, jobEngineCall, hrow, zipWith_map_same]
  rfl

/-- Splitting the published pairs around a distinguished context whose
encoding fails. -/
theorem respSpec_around_bad (env : Env) (frow : List ℕ → ℕ → List ℕ)
    (pre post tpre tpost : List String) (bad tbad : String)
    (hlen : pre.length = tpre.length) (hbad : env.enc bad = none) :
    respSpec env ((pre ++ bad :: post).map (rowOut env frow)) (tpre ++ tbad :: tpost)
      = respOf env frow pre tpre
        ++ pairSpec env (frow (List.replicate env.seq 0) 0, tbad)
          :: respOf env frow post tpost := by
  have hb : rowOut env frow bad = frow (List.replicate env.seq 0) 0 := by
    simp [rowOut, encodeRow, hbad]
  have hlen2 : (pre.map (rowOut env frow)).length = tpre.length := by simp [hlen]
  rw [respSpec, List.map_append, List.map_cons, List.zip_append hlen2,
    List.zip_cons_cons, List.map_append, List.map_cons, hb]
  rfl

/-- Splitting the published pairs of the job that omits the failing
context. -/
theorem respSpec_no_bad (env : Env) (frow : List ℕ → ℕ → List ℕ)
    (pre post tpre tpost : List String)
    (hlen : pre.length = tpre.length) :
    respSpec env ((pre ++ post).map (rowOut env frow)) (tpre ++ tpost)
      = respOf env frow pre tpre ++ respOf env frow post tpost := by
  have hlen2 : (pre.map (rowOut env frow)).length = tpre.length := by simp [hlen]
  rw [respSpec, List.map_append, List.zip_append hlen2, List.map_append]
  rfl

/-- C7: in a job whose contexts are `pre ++ [bad] ++ post` with aligned
targets `tpre ++ [tbad] ++ tpost`, where encoding raises exactly on
`bad`, the failing context becomes the all-pad row with recorded length
0, the job still publishes a full result (it is not aborted), and —
under a row-local engine — every sibling's pair is exactly the pair it
gets in the job submitted without the failing context. -/
theorem C7_encoding_failure_isolated (env : Env) (frow : List ℕ → ℕ → List ℕ)
    (pre post tpre tpost : List String) (bad tbad : String) (chan : ℕ)
    (rest : List (Job × ℕ)) (tp tm : ℚ) (g : ℤ)
    (hrow : ∀ toks lens gt tpv tmv, env.generate toks lens gt tpv tmv
              = some (List.zipWith frow toks lens))
    (hbad : env.enc bad = none)
    (hlen : pre.length = tpre.length)
    (hpp : pre ++ post ≠ [])
    (htgt : ∀ t ∈ tpre ++ tbad :: tpost, (env.enc t).isSome) :
    encodeRow env bad = (List.replicate env.seq 0, 0)
    ∧ (workerStep env
        (({ contexts := pre ++ bad :: post, top_p := tp,
            targets := tpre ++ tbad :: tpost, temp := tm, gen_tokens := g },
          chan) :: rest)).result
        = .published chan
            (respOf env frow pre tpre
              ++ pairSpec env (frow (List.replicate env.seq 0) 0, tbad)
                :: respOf env frow post tpost)
    ∧ (workerStep env
        (({ contexts := pre ++ post, top_p := tp,
            targets := tpre ++ tpost, temp := tm, gen_tokens := g },
          chan) :: rest)).result
        = .published chan (respOf env frow pre tpre ++ respOf env frow post tpost) := by
  have h1 : encodeRow env bad = (List.replicate env.seq 0, 0) := by
    simp [encodeRow, hbad]
  have htgt2 : ∀ t ∈ tpre ++ tpost, (env.enc t).isSome := by
    intro t ht
    rcases List.mem_append.mp ht with h | h
    · exact htgt t (List.mem_append.mpr (Or.inl h))
    · exact htgt t (List.mem_append.mpr (Or.inr (List.mem_cons_of_mem _ h)))
  refine ⟨h1, ?_, ?_⟩
  · have hgen := rowwise_engine_rows env frow
      { contexts := pre ++ bad :: post, top_p := tp,
        targets := tpre ++ tbad :: tpost, temp := tm, gen_tokens := g } hrow
    rw [workerStep_publishes env _ chan rest _ (by simp) hgen htgt]
    exact congrArg (IterResult.published chan)
      (respSpec_around_bad env frow pre post tpre tpost bad tbad hlen hbad)
  · have hgen := rowwise_engine_rows env frow
      { contexts := pre ++ post, top_p := tp,
        targets := tpre ++ tpost, temp := tm, gen_tokens := g } hrow
    rw [workerStep_publishes env _ chan rest _ hpp hgen htgt2]
    exact congrArg (IterResult.published chan)
      (respSpec_no_bad env frow pre post tpre tpost hlen)

/-- C7 witness: concrete job `["a", "bad", "b"]` with targets
`["c", "t", "d"]` under the concrete row-local engine. -/
theorem C7_witness :
    encodeRow envStd "bad" = (List.replicate envStd.seq 0, 0)
    ∧ (workerStep envStd
        [({ contexts := ["a"] ++ "bad" :: ["b"], top_p := 0,
            targets := ["c"] ++ "t" :: ["d"], temp := 0, gen_tokens := 1 },
          0)]).result
        = .published 0
            (respOf envStd frowStd ["a"] ["c"]
              ++ pairSpec envStd (frowStd (List.replicate envStd.seq 0) 0, "t")
                :: respOf envStd frowStd ["b"] ["d"])
    ∧ (workerStep envStd
        [({ contexts := ["a"] ++ ["b"], top_p := 0,
            targets := ["c"] ++ ["d"], temp := 0, gen_tokens := 1 },
          0)]).result
        = .published 0 (respOf envStd frowStd ["a"] ["c"] ++ respOf envStd frowStd ["b"] ["d"]) :=
  C7_encoding_failure_isolated envStd frowStd ["a"] ["b"] ["c"] ["d"] "bad" "t" 0 [] 0 0 1
    (fun _ _ _ _ _ => rfl) (by decide) rfl (by decide) (by decide)

end DeviceServe
